import Mathlib

/-!
# Verification of the Untale combat core

Shallow embedding of the combat simulation core (`src/combat/patterns.py`,
`src/combat/bullet.py`, the battle portions of `src/core/engine.py` and
`src/entities/player.py`) together with theorems settling the specification
claims about it.

Modelling conventions:
* Python `float` arithmetic is modelled over `ℚ` (the constants involved are
  exact decimals); `math.sqrt` results are passed as explicit arguments
  constrained by hypotheses of the form `dist ^ 2 = dx ^ 2 + dy ^ 2 ∧ 0 ≤ dist`.
* `pygame.Rect` stores integer coordinates; assigning a float truncates it
  toward zero exactly like Python `int(...)`, modelled by `pyInt`.
* Values from `core/settings.py` (a module of this repository that is not part
  of the provided sources) are threaded as explicit parameters (`Settings`).
* Calls into `random` are modelled by an oracle record `Rng` holding the drawn
  values; theorems quantify over all oracles, with well-formedness hypotheses
  (e.g. the shuffle used by `random.sample` is a permutation of the pool).
* The shared `pygame.sprite.Group` of bullets owned by the attack manager is
  modelled by its cardinality; individual projectile motion is modelled by the
  standalone structures below.  Per-tick pattern invocations are recorded in an
  explicit event trace so that "pattern X was executed" is directly observable.
-/

namespace Untale

/-- Python `int(...)` applied to a rational: truncation toward zero.  This is
also the conversion performed when a float is assigned to a `pygame.Rect`
coordinate. -/
def pyInt (q : ℚ) : ℤ :=
  if q < 0 then -(⌊-q⌋) else ⌊q⌋

/-- Integer-coordinate rectangle, mirroring `pygame.Rect` (x, y, width, height). -/
structure Rect where
  x : ℤ
  y : ℤ
  w : ℤ
  h : ℤ
deriving DecidableEq

def Rect.left (r : Rect) : ℤ := r.x

def Rect.right (r : Rect) : ℤ := r.x + r.w

def Rect.top (r : Rect) : ℤ := r.y

def Rect.bottom (r : Rect) : ℤ := r.y + r.h

def Rect.centerx (r : Rect) : ℤ := r.x + r.w / 2

def Rect.centery (r : Rect) : ℤ := r.y + r.h / 2

/-- `pygame.Rect.colliderect`: strict overlap on both axes. -/
def Rect.colliderect (a b : Rect) : Bool :=
  a.x < b.x + b.w && b.x < a.x + a.w && a.y < b.y + b.h && b.y < a.y + a.h

/-- `pygame.Rect.contains`: the argument lies entirely inside `outer`
(edge-inclusive). -/
def Rect.containsRect (outer inner : Rect) : Bool :=
  outer.x ≤ inner.x && outer.y ≤ inner.y &&
  inner.x + inner.w ≤ outer.x + outer.w && inner.y + inner.h ≤ outer.y + outer.h

/-! ## Projectile primitives (`src/combat/bullet.py`) -/

/-- Base projectile (`Projectile` in `bullet.py`).  `x`/`y` are the integer
`pygame.Rect` coordinates; `vx`/`vy` the stored float velocity (already
multiplied by `BULLET_SPEED_MULT` in `__init__`). -/
structure Projectile where
  x : ℤ
  y : ℤ
  w : ℤ
  h : ℤ
  vx : ℚ
  vy : ℚ
  bounds : Option Rect
  alive : Bool
deriving DecidableEq

/-- `Projectile.__init__`: stores the rect position (float truncated by the
rect) and the velocity scaled by `BULLET_SPEED_MULT`. -/
def Projectile.init (x y vx vy : ℚ) (speedMult : ℚ) (w h : ℤ) : Projectile :=
  { x := pyInt x, y := pyInt y, w := w, h := h,
    vx := vx * speedMult, vy := vy * speedMult, bounds := none, alive := true }

/-- `Projectile.set_bounds`: the kill-region is the battle box expanded by a
margin of 100 on every side. -/
def Projectile.set_bounds (p : Projectile) (box : Rect) : Projectile :=
  { p with bounds := some ⟨box.left - 100, box.top - 100, box.w + 200, box.h + 200⟩ }

/-- `Projectile.update`: `rect.x += vx; rect.y += vy`, then kill if the rect
left the kill-region.  The rect coordinates are integers, so the float sums
are truncated toward zero on assignment. -/
def Projectile.update (p : Projectile) : Projectile :=
  let x' := pyInt ((p.x : ℚ) + p.vx)
  let y' := pyInt ((p.y : ℚ) + p.vy)
  let p' := { p with x := x', y := y' }
  match p.bounds with
  | none => p'
  | some b => if b.containsRect ⟨x', y', p.w, p.h⟩ then p' else { p' with alive := false }

/-- `TargetingBullet.__init__`: aims once at the target position.  `dist` is
the value of `math.sqrt(dx*dx + dy*dy)` (supplied explicitly; theorems
constrain it).  A `speed0` of `none` or `0` falls back to the default, per the
Python `speed or (BULLET_BASE_SPEED * BULLET_SPEED_MULT)`. -/
def TargetingBullet.init (x y target_x target_y : ℚ) (speed0 : Option ℚ)
    (dist : ℚ) (baseSpeed speedMult : ℚ) : Projectile :=
  let dx := target_x - x
  let dy := target_y - y
  let speed := match speed0 with
    | none => baseSpeed * speedMult
    | some s => if s = 0 then baseSpeed * speedMult else s
  let v : ℚ × ℚ := if 0 < dist then (dx / dist * speed, dy / dist * speed) else (0, speed)
  Projectile.init x y v.1 v.2 speedMult 10 10

/-! ## HomingBlade (`src/combat/patterns.py`, lines 132-216) -/

inductive BladeState
  | aiming
  | charging
  | flying
deriving DecidableEq

/-- `HomingBlade`: keeps float `x`/`y` (separately from its rect), a
three-state machine and a velocity computed at the aiming→charging
transition. -/
structure HomingBlade where
  x : ℚ
  y : ℚ
  box_rect : Rect
  state : BladeState
  timer : ℕ
  aim_duration : ℕ
  charge_duration : ℕ
  target_x : ℚ
  target_y : ℚ
  vx : ℚ
  vy : ℚ
  speed : ℚ
  alive : Bool
deriving DecidableEq

/-- `HomingBlade.__init__`. -/
def HomingBlade.init (x y : ℚ) (box : Rect) : HomingBlade :=
  { x := x, y := y, box_rect := box, state := .aiming, timer := 0,
    aim_duration := 60, charge_duration := 15, target_x := 0, target_y := 0,
    vx := 0, vy := 0, speed := 15, alive := true }

def HomingBlade.set_target (b : HomingBlade) (tx ty : ℚ) : HomingBlade :=
  { b with target_x := tx, target_y := ty }

/-- `HomingBlade.update`.  `dist` is `math.sqrt(dx*dx + dy*dy)` for the
aiming→charging transition (supplied explicitly).  Note: when `dist = 0` the
velocity assignment is skipped, leaving the `__init__` value `(0, 0)`. -/
def HomingBlade.update (b : HomingBlade) (dist : ℚ) : HomingBlade :=
  match b.state with
  | .aiming =>
    let t := b.timer + 1
    if b.aim_duration ≤ t then
      let dx := b.target_x - b.x
      let dy := b.target_y - b.y
      if 0 < dist then
        { b with state := .charging, timer := 0,
                 vx := dx / dist * b.speed, vy := dy / dist * b.speed }
      else
        { b with state := .charging, timer := 0 }
    else { b with timer := t }
  | .charging =>
    let t := b.timer + 1
    if b.charge_duration ≤ t then { b with state := .flying, timer := t }
    else { b with timer := t }
  | .flying =>
    let x' := b.x + b.vx
    let y' := b.y + b.vy
    let b' := { b with x := x', y := y' }
    if x' < (b.box_rect.left : ℚ) - 50 ∨ (b.box_rect.right : ℚ) + 50 < x' ∨
       y' < (b.box_rect.top : ℚ) - 50 ∨ (b.box_rect.bottom : ℚ) + 50 < y' then
      { b' with alive := false }
    else b'

/-! ## GravityWell (`src/combat/patterns.py`, lines 224-262) -/

structure GravityWell where
  x : ℚ
  y : ℚ
  strength : ℚ
  repel : Bool
  duration : ℕ
  timer : ℕ
  active : Bool
  radius : ℚ
deriving DecidableEq

/-- `GravityWell.__init__`. -/
def GravityWell.init (x y strength : ℚ) (repel : Bool) (duration : ℕ) : GravityWell :=
  { x := x, y := y, strength := strength, repel := repel, duration := duration,
    timer := 0, active := true, radius := 40 }

/-- `GravityWell.update`: deactivates once the elapsed ticks reach the
duration. -/
def GravityWell.update (w : GravityWell) : GravityWell :=
  let t := w.timer + 1
  { w with timer := t, active := if w.duration ≤ t then false else w.active }

/-- `GravityWell.apply_force`.  `dist` is `math.sqrt(dx*dx + dy*dy)` (supplied
explicitly).  The distance is floored at 10 and the clamped value is used both
for the magnitude and for the direction quotient. -/
def GravityWell.apply_force (w : GravityWell) (player_x player_y dist : ℚ) : ℚ × ℚ :=
  if ¬ w.active then (0, 0)
  else
    let dx := w.x - player_x
    let dy := w.y - player_y
    let d := if dist < 10 then 10 else dist
    let mag0 := w.strength * (100 / d)
    let mag := if w.repel then -mag0 else mag0
    (dx / d * mag, dy / d * mag)

/-! ## LaserBeam (`src/combat/patterns.py`, lines 288-358) -/

inductive LaserState
  | warning
  | active
  | done
deriving DecidableEq

structure LaserBeam where
  box_rect : Rect
  is_horizontal : Bool
  pos : ℤ
  state : LaserState
  timer : ℕ
  warning_duration : ℕ
  active_duration : ℕ
  warning_width : ℤ
  beam_width : ℤ
deriving DecidableEq

/-- `LaserBeam.__init__` with the orientation and perpendicular position drawn
by the caller-provided randomness. -/
def LaserBeam.init (box : Rect) (is_horizontal : Bool) (pos : ℤ) : LaserBeam :=
  { box_rect := box, is_horizontal := is_horizontal, pos := pos,
    state := .warning, timer := 0, warning_duration := 30, active_duration := 15,
    warning_width := 2, beam_width := 30 }

/-- `LaserBeam.update`: warning→active after `warning_duration` ticks
(resetting the timer), active→done after `active_duration` further ticks. -/
def LaserBeam.update (b : LaserBeam) : LaserBeam :=
  let t := b.timer + 1
  if b.state = .warning ∧ b.warning_duration ≤ t then
    { b with state := .active, timer := 0 }
  else if b.state = .active ∧ b.active_duration ≤ t then
    { b with state := .done, timer := t }
  else { b with timer := t }

def LaserBeam.is_done (b : LaserBeam) : Bool := b.state = .done

/-- The full-width beam rectangle used while the laser is active. -/
def LaserBeam.beamRect (b : LaserBeam) : Rect :=
  if b.is_horizontal then
    ⟨b.box_rect.left, b.pos - b.beam_width / 2, b.box_rect.w, b.beam_width⟩
  else
    ⟨b.pos - b.beam_width / 2, b.box_rect.top, b.beam_width, b.box_rect.h⟩

/-- `LaserBeam.check_collision`: collides only while `active`, against the
full-width beam rectangle. -/
def LaserBeam.check_collision (b : LaserBeam) (player_rect : Rect) : Bool :=
  if b.state ≠ .active then false
  else b.beamRect.colliderect player_rect

/-- Rank of a laser state in the forward order warning → active → done. -/
def LaserState.rank : LaserState → ℕ
  | .warning => 0
  | .active => 1
  | .done => 2

/-! ## Player damage sink (`src/entities/player.py`, lines 239-263) -/

structure Player where
  hp : ℤ
  max_hp : ℤ
  invulnerability_timer : ℕ
deriving DecidableEq

/-- `Player.update_invulnerability`: decrements the timer while positive. -/
def Player.update_invulnerability (p : Player) : Player :=
  if 0 < p.invulnerability_timer then
    { p with invulnerability_timer := p.invulnerability_timer - 1 }
  else p

/-- `Player.take_damage`: rejected while invulnerable; otherwise hp is lowered
(floored at 0) and the invulnerability window restarts.
`invulnTime` is `INVULNERABILITY_TIME` from `core/settings.py`. -/
def Player.take_damage (p : Player) (damage : ℤ) (invulnTime : ℕ) : Player × Bool :=
  if 0 < p.invulnerability_timer then (p, false)
  else
    ({ p with hp := max 0 (p.hp - damage), invulnerability_timer := invulnTime }, true)

/-! ## Fight mini-game resolution (`src/core/engine.py`, lines 591-627) -/

/-- The damage multiplier computed by `BattleBox._process_fight_attack` from
the fight-bar position: `1.0 - |pos - 0.5| * 0.8`. -/
def damage_multiplier (pos : ℚ) : ℚ :=
  1 - |pos - 1/2| * (8/10)

/-- The integer damage dealt by the FIGHT attack:
`int(PLAYER_ATTACK_DAMAGE * damage_multiplier)`. -/
def fight_damage (playerAttackDamage : ℚ) (pos : ℚ) : ℤ :=
  pyInt (playerAttackDamage * damage_multiplier pos)

/-! ## Attack patterns and the AttackManager (`src/combat/patterns.py`) -/

/-- The eleven pattern identifiers. -/
inductive Pat
  | line_rain
  | circle_burst
  | targeting
  | bouncing_walls
  | spiral
  | laser_warning
  | snake_wave
  | homing_blades
  | expanding_ring
  | gravity_wells
  | rotating_cross
deriving DecidableEq, Fintype

/-- `AttackManager.BASIC_PATTERNS`. -/
def BASIC_PATTERNS : List Pat :=
  [.line_rain, .circle_burst, .targeting, .bouncing_walls, .spiral, .laser_warning]

/-- `AttackManager.COMPLEX_PATTERNS`. -/
def COMPLEX_PATTERNS : List Pat :=
  [.snake_wave, .homing_blades, .expanding_ring, .gravity_wells, .rotating_cross]

/-- `AttackManager.PATTERN_TYPES = BASIC_PATTERNS + COMPLEX_PATTERNS`. -/
def PATTERN_TYPES : List Pat := BASIC_PATTERNS ++ COMPLEX_PATTERNS

/-- Constants imported from `core/settings.py` (module of this repository not
present under the provided sources; values are threaded as parameters). -/
structure Settings where
  BULLET_BASE_SPEED : ℚ
  BULLET_SPEED_MULT : ℚ
  LINE_RAIN_INTERVAL : ℚ
  LINE_RAIN_BULLET_COUNT : ℕ
  CIRCLE_BURST_COUNT : ℚ
  CIRCLE_BURST_INTERVAL : ℚ
  TARGETING_INTERVAL : ℚ
  TARGETING_BULLETS_PER_SHOT : ℕ
  PATTERNS_PER_ROUND : ℕ
  ATTACK_DURATION : ℕ
  GAP_BETWEEN_ATTACKS : ℕ

/-- Oracle for the `random` module: holds the values drawn during one call.
`samplePerm` models the shuffle behind `random.sample(PATTERN_TYPES, k)`
(the sample is its first `k` elements); theorems that depend on sampling
assume it is a permutation of `PATTERN_TYPES`. -/
structure Rng where
  samplePerm : List Pat
  choicePat : ℕ → Pat
  combine : Bool
  secondaryIdx : ℕ
  laserHorizontal : Bool
  laserPos : ℤ
  numBlades : ℕ
  bladeSpawnPos : ℕ → ℚ × ℚ
  bladeDist : ℕ → ℚ
  ringKills : ℕ
  wellRepel : Bool

/-- The mutable state of `AttackManager`.  `bullets` is the cardinality of the
shared sprite group; `cross_bullets` the cardinality of the rotating-cross
bullet list. -/
structure AMState where
  box_rect : Rect
  bullets : ℕ
  attack_queue : List Pat
  current_pattern_index : ℕ
  pattern_timer : ℕ
  gap_timer : ℕ
  in_gap : Bool
  round_active : Bool
  current_pattern : Option Pat
  secondary_pattern : Option Pat
  difficulty : ℚ
  pattern_internal_timer : ℕ
  pattern_internal_timer_2 : ℕ
  lasers : List LaserBeam
  laser_spawn_timer : ℕ
  gravity_mode : Bool
  gravity_wells : List GravityWell
  cross_bullets : ℕ
  cross_angle : ℚ
  ring_timer : ℕ
  homing_blades : List HomingBlade

/-- The secondary-pattern draw performed at pattern start: with probability
30% (`rng.combine`) pick a basic pattern other than the current one, else
none; complex patterns never get a secondary. -/
def chooseSecondary (current : Pat) (rng : Rng) : Option Pat :=
  if current ∈ BASIC_PATTERNS then
    let other := BASIC_PATTERNS.filter (fun p => p ≠ current)
    if rng.combine then some (other.getD (rng.secondaryIdx % other.length) current)
    else none
  else none

/-- Read the timer slot used by a basic pattern body (`pattern_internal_timer`
or `pattern_internal_timer_2` when run as the secondary pattern). -/
def AMState.slotTimer (s : AMState) (secondary : Bool) : ℕ :=
  if secondary then s.pattern_internal_timer_2 else s.pattern_internal_timer

/-- Write back the timer slot used by a basic pattern body. -/
def AMState.setSlotTimer (s : AMState) (secondary : Bool) (t : ℕ) : AMState :=
  if secondary then { s with pattern_internal_timer_2 := t }
  else { s with pattern_internal_timer := t }

/-- `_pattern_line_rain`: every `int(LINE_RAIN_INTERVAL / difficulty)` ticks
spawn `LINE_RAIN_BULLET_COUNT` falling lines. -/
def lineRainBody (s : AMState) (cfg : Settings) (secondary : Bool) : AMState :=
  let timer := s.slotTimer secondary + 1
  let interval := (pyInt (cfg.LINE_RAIN_INTERVAL / s.difficulty)).toNat
  if interval ≤ timer then
    ({ s with bullets := s.bullets + cfg.LINE_RAIN_BULLET_COUNT }).setSlotTimer secondary 0
  else s.setSlotTimer secondary timer

/-- `_pattern_circle_burst`: every `int(CIRCLE_BURST_INTERVAL / difficulty)`
ticks spawn `int(CIRCLE_BURST_COUNT * difficulty)` bullets around a circle. -/
def circleBurstBody (s : AMState) (cfg : Settings) (secondary : Bool) : AMState :=
  let timer := s.slotTimer secondary + 1
  let interval := (pyInt (cfg.CIRCLE_BURST_INTERVAL / s.difficulty)).toNat
  if interval ≤ timer then
    let count := (pyInt (cfg.CIRCLE_BURST_COUNT * s.difficulty)).toNat
    ({ s with bullets := s.bullets + count }).setSlotTimer secondary 0
  else s.setSlotTimer secondary timer

/-- `_pattern_targeting`: every `int(TARGETING_INTERVAL / difficulty)` ticks
spawn one bullet from each of `min(TARGETING_BULLETS_PER_SHOT, 4)` randomly
sampled arena corners, aimed at the player. -/
def targetingBody (s : AMState) (cfg : Settings) (secondary : Bool) : AMState :=
  let timer := s.slotTimer secondary + 1
  let interval := (pyInt (cfg.TARGETING_INTERVAL / s.difficulty)).toNat
  if interval ≤ timer then
    ({ s with bullets := s.bullets + min cfg.TARGETING_BULLETS_PER_SHOT 4 }).setSlotTimer secondary 0
  else s.setSlotTimer secondary timer

/-- `_pattern_bouncing_walls`: every `int(60 / difficulty)` ticks spawn one
bouncing square from a random edge. -/
def bouncingWallsBody (s : AMState) (_cfg : Settings) (secondary : Bool) : AMState :=
  let timer := s.slotTimer secondary + 1
  let interval := (pyInt (60 / s.difficulty)).toNat
  if interval ≤ timer then
    ({ s with bullets := s.bullets + 1 }).setSlotTimer secondary 0
  else s.setSlotTimer secondary timer

/-- `_pattern_spiral`: every 3 ticks spawn 2 bullets from the centre. -/
def spiralBody (s : AMState) : AMState :=
  let timer := s.pattern_internal_timer + 1
  if 3 ≤ timer then
    { s with bullets := s.bullets + 2, pattern_internal_timer := 0 }
  else { s with pattern_internal_timer := timer }

/-- `_pattern_laser_warning`: update and prune the beams every tick; every 60
ticks append a fresh beam with randomly drawn orientation and position. -/
def laserWarningBody (s : AMState) (rng : Rng) : AMState :=
  let t := s.laser_spawn_timer + 1
  let lasers := (s.lasers.map LaserBeam.update).filter (fun l => ¬ l.is_done)
  if 60 ≤ t then
    { s with laser_spawn_timer := 0,
             lasers := lasers ++ [LaserBeam.init s.box_rect rng.laserHorizontal rng.laserPos] }
  else { s with laser_spawn_timer := t, lasers := lasers }

/-- Number of elements of Python `range(a, b, 40)` (used by snake_wave). -/
def rangeCount40 (a b : ℤ) : ℕ :=
  if a < b then ((b - a + 39) / 40).toNat else 0

/-- `_pattern_snake_wave`: every 40 ticks spawn a column of wave bullets at
vertical spacing 40 across the arena. -/
def snakeWaveBody (s : AMState) : AMState :=
  let timer := s.pattern_internal_timer + 1
  if 40 ≤ timer then
    { s with pattern_internal_timer := 0,
             bullets := s.bullets + rangeCount40 (s.box_rect.top + 10) (s.box_rect.bottom - 10) }
  else { s with pattern_internal_timer := timer }

/-- The per-tick blade maintenance loop of `_pattern_homing_blades`: update
each blade (with its sqrt-distance supplied by the oracle), re-latch the
target while aiming, drop dead blades. -/
def updateBlades (blades : List HomingBlade) (px py : ℚ) (distOf : ℕ → ℚ) : List HomingBlade :=
  ((blades.enum.map (fun ib =>
      let b := ib.2.update (distOf ib.1)
      if b.state = .aiming then b.set_target px py else b)).filter (fun b => b.alive))

/-- `_pattern_homing_blades`: maintain the blade list every tick; every 90
ticks spawn `randint(2,3)` new blades from distinct edges, each aimed at the
player. -/
def homingBladesBody (s : AMState) (rng : Rng) (px py : ℚ) : AMState :=
  let timer := s.pattern_internal_timer + 1
  let blades := updateBlades s.homing_blades px py rng.bladeDist
  let removed := s.homing_blades.length - blades.length
  let bullets := s.bullets - removed
  if 90 ≤ timer then
    let newBlades := (List.range rng.numBlades).map (fun i =>
      (HomingBlade.init (rng.bladeSpawnPos i).1 (rng.bladeSpawnPos i).2 s.box_rect).set_target px py)
    { s with pattern_internal_timer := 0, homing_blades := blades ++ newBlades,
             bullets := bullets + rng.numBlades }
  else { s with pattern_internal_timer := timer, homing_blades := blades, bullets := bullets }

/-- `_pattern_expanding_ring`: every 100 ticks spawn a 16-point ring with 2
random gaps (14 bullets).  Existing ring bullets grow their radius each tick
and die past the arena's larger dimension; the number of such removals this
tick is geometry-dependent and supplied by the oracle (`rng.ringKills`). -/
def expandingRingBody (s : AMState) (rng : Rng) : AMState :=
  let t := s.ring_timer + 1
  if 100 ≤ t then
    { s with ring_timer := 0, bullets := s.bullets + 14 - rng.ringKills }
  else { s with ring_timer := t, bullets := s.bullets - rng.ringKills }

/-- `_pattern_gravity_wells`: lazily create one well at the arena centre,
update all wells each tick, enable gravity mode; every 30 ticks spawn one
angled bullet from a random corner. -/
def gravityWellsBody (s : AMState) (cfg : Settings) (rng : Rng) : AMState :=
  let timer := s.pattern_internal_timer + 1
  let wells0 := if s.gravity_wells.isEmpty then
      [GravityWell.init (s.box_rect.centerx : ℚ) (s.box_rect.centery : ℚ) (4/10)
        rng.wellRepel cfg.ATTACK_DURATION]
    else s.gravity_wells
  let wells := wells0.map GravityWell.update
  if 30 ≤ timer then
    { s with pattern_internal_timer := 0, gravity_wells := wells, gravity_mode := true,
             bullets := s.bullets + 1 }
  else { s with pattern_internal_timer := timer, gravity_wells := wells, gravity_mode := true }

/-- `_pattern_rotating_cross`: lazily build the 32-bullet cross (4 arms × 8)
on the first tick, rotate it each tick; every 60 ticks add 2 falling
bullets. -/
def rotatingCrossBody (s : AMState) : AMState :=
  let (cross, bullets) :=
    if s.cross_bullets = 0 then (32, s.bullets + 32) else (s.cross_bullets, s.bullets)
  let angle := s.cross_angle + (2/100) * s.difficulty
  let timer := s.pattern_internal_timer + 1
  if 60 ≤ timer then
    { s with cross_bullets := cross, cross_angle := angle, pattern_internal_timer := 0,
             bullets := bullets + 2 }
  else
    { s with cross_bullets := cross, cross_angle := angle, pattern_internal_timer := timer,
             bullets := bullets }

/-- Which slot a pattern invocation ran in. -/
inductive Slot
  | primary
  | secondary
deriving DecidableEq

/-- An observable pattern invocation event. -/
abbrev PatEvent := Pat × Slot

/-- `_execute_current_pattern`: dispatch on the current pattern identifier
(all eleven are handled).  Emits one primary invocation event. -/
def executeCurrentPattern (s : AMState) (cfg : Settings) (rng : Rng) (px py : ℚ) :
    AMState × List PatEvent :=
  match s.current_pattern with
  | none => (s, [])
  | some p =>
    let s' := match p with
      | .line_rain => lineRainBody s cfg false
      | .circle_burst => circleBurstBody s cfg false
      | .targeting => targetingBody s cfg false
      | .bouncing_walls => bouncingWallsBody s cfg false
      | .spiral => spiralBody s
      | .laser_warning => laserWarningBody s rng
      | .snake_wave => snakeWaveBody s
      | .homing_blades => homingBladesBody s rng px py
      | .expanding_ring => expandingRingBody s rng
      | .gravity_wells => gravityWellsBody s cfg rng
      | .rotating_cross => rotatingCrossBody s
    (s', [(p, .primary)])

/-- `_execute_secondary_pattern`: dispatch on the secondary pattern.  Only
`line_rain`, `circle_burst`, `targeting` and `bouncing_walls` have branches;
any other secondary falls through the `elif` chain and nothing runs. -/
def executeSecondaryPattern (s : AMState) (cfg : Settings) (_px _py : ℚ) :
    AMState × List PatEvent :=
  match s.secondary_pattern with
  | some .line_rain => (lineRainBody s cfg true, [(.line_rain, .secondary)])
  | some .circle_burst => (circleBurstBody s cfg true, [(.circle_burst, .secondary)])
  | some .targeting => (targetingBody s cfg true, [(.targeting, .secondary)])
  | some .bouncing_walls => (bouncingWallsBody s cfg true, [(.bouncing_walls, .secondary)])
  | _ => (s, [])

/-- `_end_current_pattern`: clear every projectile and hazard, enter the gap
state. -/
def AMState.endCurrentPattern (s : AMState) : AMState :=
  { s with bullets := 0, lasers := [], gravity_mode := false, gravity_wells := [],
           cross_bullets := 0, homing_blades := [], in_gap := true, gap_timer := 0 }

/-- `_next_pattern`: advance the queue index by one; finish the round when the
queue is exhausted, otherwise load the next pattern, reset its counters and
draw a fresh secondary. -/
def AMState.nextPattern (s : AMState) (rng : Rng) : AMState :=
  let idx := s.current_pattern_index + 1
  if s.attack_queue.length ≤ idx then
    { s with current_pattern_index := idx, round_active := false, current_pattern := none }
  else
    { s with current_pattern_index := idx,
             current_pattern := s.attack_queue[idx]?,
             pattern_timer := 0, pattern_internal_timer := 0, pattern_internal_timer_2 := 0,
             laser_spawn_timer := 0,
             secondary_pattern := match s.attack_queue[idx]? with
               | some p => chooseSecondary p rng
               | none => none }

/-- `AttackManager.update`: the per-tick scheduler.  Returns the new state,
the `round_active` return value, and the trace of pattern invocations this
tick. -/
def AMState.update (s : AMState) (cfg : Settings) (rng : Rng) (px py : ℚ) :
    AMState × Bool × List PatEvent :=
  if ¬ s.round_active then (s, false, [])
  else if s.in_gap then
    let g := s.gap_timer + 1
    if cfg.GAP_BETWEEN_ATTACKS ≤ g then
      (({ s with in_gap := false, gap_timer := 0 }).nextPattern rng, true, [])
    else ({ s with gap_timer := g }, true, [])
  else
    let s1 := { s with pattern_timer := s.pattern_timer + 1 }
    if cfg.ATTACK_DURATION ≤ s1.pattern_timer then (s1.endCurrentPattern, true, [])
    else
      let r1 := executeCurrentPattern s1 cfg rng px py
      if r1.1.secondary_pattern.isSome then
        let r2 := executeSecondaryPattern r1.1 cfg px py
        (r2.1, true, r1.2 ++ r2.2)
      else (r1.1, true, r1.2)

/-- The common tail of `_start_new_round` and
`start_round_with_pattern_count`: install the queue, load its head, draw the
secondary, reset every per-round and per-pattern counter and hazard list. -/
def AMState.installQueue (s : AMState) (queue : List Pat) (rng : Rng) : AMState :=
  { s with attack_queue := queue, current_pattern_index := 0,
           current_pattern := queue.head?,
           secondary_pattern := match queue.head? with
             | some p => chooseSecondary p rng
             | none => none,
           pattern_timer := 0, gap_timer := 0, in_gap := false, round_active := true,
           pattern_internal_timer := 0, pattern_internal_timer_2 := 0,
           lasers := [], laser_spawn_timer := 0, gravity_mode := false,
           gravity_wells := [], cross_bullets := 0, cross_angle := 0,
           ring_timer := 0, homing_blades := [] }

/-- `_start_new_round`: sample `min(PATTERNS_PER_ROUND, 11)` patterns without
replacement, then fill up to `PATTERNS_PER_ROUND` with replacement. -/
def AMState.startNewRound (s : AMState) (cfg : Settings) (rng : Rng) : AMState :=
  let sampled := rng.samplePerm.take (min cfg.PATTERNS_PER_ROUND PATTERN_TYPES.length)
  let queue := sampled ++ (List.range (cfg.PATTERNS_PER_ROUND - sampled.length)).map rng.choicePat
  s.installQueue queue rng

/-- `start_round_with_pattern_count`: the requested count is clamped to
`max(1, min(count, 11))` before sampling; the subsequent `while` fill loop is
kept from the source (it is unreachable once the count is clamped). -/
def AMState.start_round_with_pattern_count (s : AMState) (rng : Rng) (patterns_count : ℕ) :
    AMState :=
  let pc := max 1 (min patterns_count PATTERN_TYPES.length)
  let queue := rng.samplePerm.take pc
  let queue := queue ++ (List.range (pc - queue.length)).map rng.choicePat
  s.installQueue queue rng

/-- `AttackManager.reset`. -/
def AMState.reset (s : AMState) : AMState :=
  { s with bullets := 0, attack_queue := [], current_pattern := none,
           secondary_pattern := none, current_pattern_index := 0, pattern_timer := 0,
           gap_timer := 0, in_gap := false, round_active := false,
           pattern_internal_timer := 0, pattern_internal_timer_2 := 0, lasers := [],
           laser_spawn_timer := 0, gravity_mode := false, gravity_wells := [],
           cross_bullets := 0, cross_angle := 0, ring_timer := 0, homing_blades := [] }

/-- `AttackManager.set_difficulty`: clamp into `[0.5, 3.0]`. -/
def AMState.set_difficulty (s : AMState) (d : ℚ) : AMState :=
  { s with difficulty := max (1/2) (min d 3) }

/-- `AttackManager.clear_bullets`. -/
def AMState.clear_bullets (s : AMState) : AMState :=
  { s with bullets := 0, lasers := [], gravity_mode := false, gravity_wells := [],
           cross_bullets := 0, homing_blades := [] }

/-! ## Invariants and reachability -/

/-- The secondary-pattern invariant: while a round is active, the secondary is
either absent or a basic pattern different from the primary, and it is absent
whenever the primary is complex. -/
def SecondaryInv (s : AMState) : Prop :=
  s.round_active = true → ∀ p, s.current_pattern = some p →
    (s.secondary_pattern = none ∨
      ∃ q, s.secondary_pattern = some q ∧ q ∈ BASIC_PATTERNS ∧ q ≠ p) ∧
    (p ∈ COMPLEX_PATTERNS → s.secondary_pattern = none)

/-- Attack-manager states reachable through the public interface: round
starts (the constructor and `start_round` call `_start_new_round`;
`start_round_with_pattern_count` is the boss entry point), per-tick updates,
`reset`, `set_difficulty` and `clear_bullets`. -/
inductive ReachableAM (cfg : Settings) : AMState → Prop
  | start (s : AMState) (rng : Rng) : ReachableAM cfg (s.startNewRound cfg rng)
  | startCount (s : AMState) (rng : Rng) (n : ℕ) :
      ReachableAM cfg (s.start_round_with_pattern_count rng n)
  | step (s : AMState) (rng : Rng) (px py : ℚ) (h : ReachableAM cfg s) :
      ReachableAM cfg (s.update cfg rng px py).1
  | reset (s : AMState) (h : ReachableAM cfg s) : ReachableAM cfg s.reset
  | setDifficulty (s : AMState) (d : ℚ) (h : ReachableAM cfg s) :
      ReachableAM cfg (s.set_difficulty d)
  | clearBullets (s : AMState) (h : ReachableAM cfg s) : ReachableAM cfg s.clear_bullets

/-! ## Concrete fixtures used by witnesses and counterexamples -/

/-- A concrete battle box (position and size match the shape used in play). -/
def box0 : Rect := ⟨100, 100, 400, 300⟩

/-- Concrete settings used to instantiate theorems at explicit values. -/
def cfg0 : Settings :=
  { BULLET_BASE_SPEED := 3, BULLET_SPEED_MULT := 1, LINE_RAIN_INTERVAL := 20,
    LINE_RAIN_BULLET_COUNT := 3, CIRCLE_BURST_COUNT := 12, CIRCLE_BURST_INTERVAL := 50,
    TARGETING_INTERVAL := 45, TARGETING_BULLETS_PER_SHOT := 2, PATTERNS_PER_ROUND := 3,
    ATTACK_DURATION := 300, GAP_BETWEEN_ATTACKS := 60 }

/-- A concrete randomness oracle: the identity shuffle and fixed draws. -/
def rng0 : Rng :=
  { samplePerm := PATTERN_TYPES, choicePat := fun _ => .line_rain, combine := false,
    secondaryIdx := 0, laserHorizontal := true, laserPos := 200, numBlades := 2,
    bladeSpawnPos := fun _ => (120, 120), bladeDist := fun _ => 0, ringKills := 0,
    wellRepel := false }

/-- An oracle whose 30% roll succeeds and whose secondary index selects
`spiral` out of the five basic patterns other than `line_rain`. -/
def rng3 : Rng := { rng0 with combine := true, secondaryIdx := 3 }

/-- An oracle whose 30% roll succeeds and whose secondary index selects
`circle_burst` out of the five basic patterns other than `line_rain`. -/
def rng4 : Rng := { rng0 with combine := true, secondaryIdx := 0 }

/-- A concrete idle attack-manager state (the fields a fresh manager holds
before its first round). -/
def am0 : AMState :=
  { box_rect := box0, bullets := 0, attack_queue := [], current_pattern_index := 0,
    pattern_timer := 0, gap_timer := 0, in_gap := false, round_active := false,
    current_pattern := none, secondary_pattern := none, difficulty := 1,
    pattern_internal_timer := 0, pattern_internal_timer_2 := 0, lasers := [],
    laser_spawn_timer := 0, gravity_mode := false, gravity_wells := [],
    cross_bullets := 0, cross_angle := 0, ring_timer := 0, homing_blades := [] }

/-- A freshly started round whose secondary pattern is `spiral`. -/
def s3 : AMState := am0.startNewRound cfg0 rng3

/-- A freshly started round whose secondary pattern is `circle_burst`. -/
def s4 : AMState := am0.startNewRound cfg0 rng4

/-- A state one tick away from completing the gap after the last queued
pattern. -/
def sGap : AMState :=
  { am0 with round_active := true, in_gap := true, gap_timer := 59,
             attack_queue := [.line_rain], current_pattern_index := 0 }

/-- A gravity well at the origin with strength 1/2 (attracting). -/
def well6 : GravityWell := GravityWell.init 0 0 (1/2) false 180

/-- A base projectile with fractional horizontal velocity 1/2. -/
def proj0 : Projectile := Projectile.init 0 0 (1/2) 0 1 8 8

/-- A base projectile with integer velocity (3, -2). -/
def proj1 : Projectile := Projectile.init 5 5 3 (-2) 1 8 8

/-- A homing blade whose latched target coincides with its own position. -/
def blade0 : HomingBlade := (HomingBlade.init 200 150 box0).set_target 200 150

/-- One blade tick with the (exact) zero distance for the degenerate aim. -/
def bladeStep (b : HomingBlade) : HomingBlade := b.update 0

/-- A concrete player with full hp and no invulnerability. -/
def player0 : Player := { hp := 20, max_hp := 20, invulnerability_timer := 0 }

/-- A laser beam forced into the `active` state, for collision checks. -/
def laserActive : LaserBeam := { LaserBeam.init box0 true 200 with state := .active }

/-! ## Helper lemmas -/

/-- Python `int(...)` is the identity on integers. -/
theorem pyInt_intCast (n : ℤ) : pyInt (n : ℚ) = n := by
  unfold pyInt
  split
  · rw [← Int.cast_neg, Int.floor_intCast, neg_neg]
  · rw [Int.floor_intCast]

/-- `update` moves the rect abscissa to the truncation of `x + vx` in every
branch (the kill check does not move the projectile). -/
theorem projectile_update_x (p : Projectile) :
    (p.update).x = pyInt ((p.x : ℚ) + p.vx) := by
  unfold Projectile.update
  split
  · rfl
  · dsimp only
    split <;> rfl

/-- `update` moves the rect ordinate to the truncation of `y + vy` in every
branch. -/
theorem projectile_update_y (p : Projectile) :
    (p.update).y = pyInt ((p.y : ℚ) + p.vy) := by
  unfold Projectile.update
  split
  · rfl
  · dsimp only
    split <;> rfl

/-- Iterating `update_invulnerability` subtracts from the timer and never
touches hp. -/
theorem invuln_iterate (p : Player) (k : ℕ) :
    ((Player.update_invulnerability)^[k] p).invulnerability_timer =
      p.invulnerability_timer - k ∧
    ((Player.update_invulnerability)^[k] p).hp = p.hp := by
  induction k generalizing p with
  | zero => simp
  | succ k ih =>
    rw [Function.iterate_succ_apply]
    have h1 : (p.update_invulnerability).invulnerability_timer =
        p.invulnerability_timer - 1 := by
      unfold Player.update_invulnerability
      split
      · rfl
      · omega
    have h2 : (p.update_invulnerability).hp = p.hp := by
      unfold Player.update_invulnerability
      split <;> rfl
    obtain ⟨ia, ib⟩ := ih p.update_invulnerability
    refine ⟨?_, by rw [ib, h2]⟩
    rw [ia, h1]
    omega

/-- A blade that is aiming with time left just advances its timer. -/
theorem bladeStep_aiming_step (b : HomingBlade) (hst : b.state = .aiming)
    (h : b.timer + 1 < b.aim_duration) : bladeStep b = { b with timer := b.timer + 1 } := by
  simp only [bladeStep, HomingBlade.update, hst]
  rw [if_neg (by omega)]

/-- While the aim duration has not elapsed, iterating the blade update only
accumulates the timer. -/
theorem bladeStep_aiming_iter (b : HomingBlade) (hst : b.state = .aiming) (k : ℕ)
    (hk : b.timer + k < b.aim_duration) :
    (bladeStep)^[k] b = { b with timer := b.timer + k } := by
  induction k with
  | zero => rfl
  | succ k ih =>
    rw [Function.iterate_succ_apply', ih (by omega)]
    rw [bladeStep_aiming_step { b with timer := b.timer + k } hst
      (show b.timer + k + 1 < b.aim_duration by omega)]
    rfl

/-- Splitting a quotient by a common nonzero divisor out of a sum of two
squared products. -/
theorem force_norm_expand (dx dy d m : ℚ) (hd0 : d ≠ 0) :
    (dx/d*m)^2 + (dy/d*m)^2 = (dx^2 + dy^2) * m^2 / d^2 := by
  field_simp
  ring

/-- A laser in `warning` with time left only advances its timer. -/
theorem laser_step_warning_stay (b : LaserBeam) (hst : b.state = .warning)
    (h : b.timer + 1 < b.warning_duration) :
    b.update = { b with timer := b.timer + 1 } := by
  have h1 : ¬ (b.state = LaserState.warning ∧ b.warning_duration ≤ b.timer + 1) := by
    rintro ⟨-, h2⟩
    omega
  have h2 : ¬ (b.state = LaserState.active ∧ b.active_duration ≤ b.timer + 1) := by
    rintro ⟨ha, -⟩
    rw [hst] at ha
    exact LaserState.noConfusion ha
  simp only [LaserBeam.update]
  rw [if_neg h1, if_neg h2]

/-- A laser in `warning` whose duration elapsed becomes `active` with a fresh
timer. -/
theorem laser_step_warning_fire (b : LaserBeam) (hst : b.state = .warning)
    (h : b.warning_duration ≤ b.timer + 1) :
    b.update = { b with state := .active, timer := 0 } := by
  simp only [LaserBeam.update]
  rw [if_pos ⟨hst, h⟩]

/-- A laser in `active` with time left only advances its timer. -/
theorem laser_step_active_stay (b : LaserBeam) (hst : b.state = .active)
    (h : b.timer + 1 < b.active_duration) :
    b.update = { b with timer := b.timer + 1 } := by
  have h1 : ¬ (b.state = LaserState.warning ∧ b.warning_duration ≤ b.timer + 1) := by
    rintro ⟨ha, -⟩
    rw [hst] at ha
    exact LaserState.noConfusion ha
  have h2 : ¬ (b.state = LaserState.active ∧ b.active_duration ≤ b.timer + 1) := by
    rintro ⟨-, h2⟩
    omega
  simp only [LaserBeam.update]
  rw [if_neg h1, if_neg h2]

/-- A laser in `active` whose duration elapsed becomes `done`. -/
theorem laser_step_active_fire (b : LaserBeam) (hst : b.state = .active)
    (h : b.active_duration ≤ b.timer + 1) :
    b.update = { b with state := .done, timer := b.timer + 1 } := by
  have h1 : ¬ (b.state = LaserState.warning ∧ b.warning_duration ≤ b.timer + 1) := by
    rintro ⟨ha, -⟩
    rw [hst] at ha
    exact LaserState.noConfusion ha
  simp only [LaserBeam.update]
  rw [if_neg h1, if_pos ⟨hst, h⟩]

/-- A laser in `done` stays in `done` forever (only the timer moves). -/
theorem laser_step_done (b : LaserBeam) (hst : b.state = .done) :
    b.update = { b with timer := b.timer + 1 } := by
  have h1 : ¬ (b.state = LaserState.warning ∧ b.warning_duration ≤ b.timer + 1) := by
    rintro ⟨ha, -⟩
    rw [hst] at ha
    exact LaserState.noConfusion ha
  have h2 : ¬ (b.state = LaserState.active ∧ b.active_duration ≤ b.timer + 1) := by
    rintro ⟨ha, -⟩
    rw [hst] at ha
    exact LaserState.noConfusion ha
  simp only [LaserBeam.update]
  rw [if_neg h1, if_neg h2]

/-- Iterating the laser update inside the warning window accumulates the
timer. -/
theorem laser_warning_iter (b : LaserBeam) (hst : b.state = .warning) (k : ℕ)
    (hk : b.timer + k < b.warning_duration) :
    (LaserBeam.update)^[k] b = { b with timer := b.timer + k } := by
  induction k with
  | zero => rfl
  | succ k ih =>
    rw [Function.iterate_succ_apply', ih (by omega),
      laser_step_warning_stay { b with timer := b.timer + k } hst
        (show b.timer + k + 1 < b.warning_duration by omega)]
    rfl

/-- Iterating the laser update inside the active window accumulates the
timer. -/
theorem laser_active_iter (b : LaserBeam) (hst : b.state = .active) (k : ℕ)
    (hk : b.timer + k < b.active_duration) :
    (LaserBeam.update)^[k] b = { b with timer := b.timer + k } := by
  induction k with
  | zero => rfl
  | succ k ih =>
    rw [Function.iterate_succ_apply', ih (by omega),
      laser_step_active_stay { b with timer := b.timer + k } hst
        (show b.timer + k + 1 < b.active_duration by omega)]
    rfl

/-- `done` is absorbing for the laser update. -/
theorem laser_done_iter (b : LaserBeam) (hst : b.state = .done) (k : ℕ) :
    ((LaserBeam.update)^[k] b).state = .done := by
  induction k with
  | zero => exact hst
  | succ k ih =>
    rw [Function.iterate_succ_apply', laser_step_done _ ih]
    exact ih

/-- A freshly constructed beam becomes active exactly at tick 30. -/
theorem laser_init_30 (box : Rect) (hor : Bool) (pos : ℤ) :
    (LaserBeam.update)^[30] (LaserBeam.init box hor pos) =
      { LaserBeam.init box hor pos with state := .active, timer := 0 } := by
  rw [show (30 : ℕ) = 29 + 1 from rfl, Function.iterate_succ_apply',
    laser_warning_iter _ rfl 29 (by show 0 + 29 < 30; omega),
    laser_step_warning_fire _ rfl (by show 30 ≤ 0 + 29 + 1; omega)]

/-- A freshly constructed beam is done exactly at tick 45. -/
theorem laser_init_45 (box : Rect) (hor : Bool) (pos : ℤ) :
    (LaserBeam.update)^[45] (LaserBeam.init box hor pos) =
      { LaserBeam.init box hor pos with state := .done, timer := 15 } := by
  rw [show (45 : ℕ) = 15 + 30 from rfl, Function.iterate_add_apply, laser_init_30,
    show (15 : ℕ) = 14 + 1 from rfl, Function.iterate_succ_apply',
    laser_active_iter _ rfl 14 (by show 0 + 14 < 15; omega),
    laser_step_active_fire _ rfl (by show 15 ≤ 0 + 14 + 1; omega)]

/-! ## Claim theorems -/

/-- C4 counterexample: the claim asserts that selecting the fight bar at
position 0.0 or 1.0 yields a damage multiplier of 0.2, but the code's formula
`1 - 0.8 * |pos - 0.5|` yields 0.6 at both edges. -/
theorem C4_counterexample_edge_multiplier :
    damage_multiplier 0 = 3/5 ∧ damage_multiplier 1 = 3/5 ∧ (3/5 : ℚ) ≠ 1/5 := by
  have h0 : |(0 : ℚ) - 1/2| = 1/2 := by
    rw [abs_of_nonpos (by norm_num)]
    norm_num
  have h1 : |(1 : ℚ) - 1/2| = 1/2 := by
    rw [abs_of_nonneg (by norm_num)]
    norm_num
  refine ⟨?_, ?_, by norm_num⟩ <;> unfold damage_multiplier
  · rw [h0]
    norm_num
  · rw [h1]
    norm_num

/-- C4 (amended): the FIGHT mini-game multiplier is `1 - 0.8 * |pos - 0.5|`:
it is 1 at the midpoint, 0.6 (not 0.2) at either edge, monotonically
decreasing in the distance from the midpoint, and bounded in `[0.6, 1]` over
positions in `[0, 1]`. -/
theorem C4_fight_multiplier_amended (p q : ℚ) (h : |p - 1/2| ≤ |q - 1/2|) :
    damage_multiplier q ≤ damage_multiplier p ∧
    damage_multiplier (1/2) = 1 ∧
    (0 ≤ p → p ≤ 1 → 3/5 ≤ damage_multiplier p ∧ damage_multiplier p ≤ 1) := by
  unfold damage_multiplier
  refine ⟨?_, ?_, fun h0 h1 => ?_⟩
  · have := mul_le_mul_of_nonneg_right h (by norm_num : (0 : ℚ) ≤ 8/10)
    linarith
  · rw [show (1:ℚ)/2 - 1/2 = 0 by ring, abs_zero]
    norm_num
  · have ha : |p - 1/2| ≤ 1/2 := abs_le.mpr ⟨by linarith, by linarith⟩
    have hb : 0 ≤ |p - 1/2| := abs_nonneg _
    have h2 := mul_le_mul_of_nonneg_right ha (by norm_num : (0 : ℚ) ≤ 8/10)
    have h3 : 0 ≤ |p - 1/2| * (8/10) := by positivity
    constructor <;> linarith

/-- C4 witness: the amended theorem applied at concrete bar positions 3/8 and
1/4. -/
theorem C4_witness :
    damage_multiplier (1/4) ≤ damage_multiplier (3/8) ∧ damage_multiplier (1/2) = 1 := by
  have h := C4_fight_multiplier_amended (3/8) (1/4) (by
    rw [abs_of_nonpos (by norm_num : (3:ℚ)/8 - 1/2 ≤ 0),
      abs_of_nonpos (by norm_num : (1:ℚ)/4 - 1/2 ≤ 0)]
    norm_num)
  exact ⟨h.1, h.2.1⟩

/-- C5: `take_damage` returns false and leaves the player unchanged while the
invulnerability timer is positive; when the timer is zero it returns true,
lowers hp by the damage amount (floored at 0, hence a strict decrease for a
positive hit on a live player), and restarts the invulnerability window, so
that any further hit within the window is rejected and a hit once the window
has expired succeeds. -/
theorem C5_invulnerability_window (p : Player) (dmg : ℤ) (T : ℕ) :
    (0 < p.invulnerability_timer → p.take_damage dmg T = (p, false)) ∧
    (p.invulnerability_timer = 0 →
      (p.take_damage dmg T).2 = true ∧
      (p.take_damage dmg T).1.hp = max 0 (p.hp - dmg) ∧
      (p.take_damage dmg T).1.invulnerability_timer = T ∧
      (0 < dmg → 0 < p.hp → (p.take_damage dmg T).1.hp < p.hp) ∧
      (∀ k, k < T → ∀ d2 : ℤ,
        ((Player.update_invulnerability)^[k] (p.take_damage dmg T).1).take_damage d2 T =
          ((Player.update_invulnerability)^[k] (p.take_damage dmg T).1, false)) ∧
      (∀ d2 : ℤ,
        (((Player.update_invulnerability)^[T] (p.take_damage dmg T).1).take_damage d2 T).2 =
          true)) := by
  constructor
  · intro hpos
    unfold Player.take_damage
    rw [if_pos hpos]
  · intro hz
    have hneg : ¬ 0 < p.invulnerability_timer := by omega
    have hres : p.take_damage dmg T =
        ({ p with hp := max 0 (p.hp - dmg), invulnerability_timer := T }, true) := by
      unfold Player.take_damage
      rw [if_neg hneg]
    rw [hres]
    refine ⟨rfl, rfl, rfl, ?_, ?_, ?_⟩
    · intro hd hhp
      show max 0 (p.hp - dmg) < p.hp
      omega
    · intro k hk d2
      have ht : ((Player.update_invulnerability)^[k]
          ({ p with hp := max 0 (p.hp - dmg), invulnerability_timer := T } :
            Player)).invulnerability_timer = T - k :=
        (invuln_iterate { p with hp := max 0 (p.hp - dmg), invulnerability_timer := T } k).1
      have hpos2 : 0 < ((Player.update_invulnerability)^[k]
          ({ p with hp := max 0 (p.hp - dmg), invulnerability_timer := T } :
            Player)).invulnerability_timer := by
        rw [ht]
        omega
      unfold Player.take_damage
      rw [if_pos hpos2]
    · intro d2
      have ht : ((Player.update_invulnerability)^[T]
          ({ p with hp := max 0 (p.hp - dmg), invulnerability_timer := T } :
            Player)).invulnerability_timer = T - T :=
        (invuln_iterate { p with hp := max 0 (p.hp - dmg), invulnerability_timer := T } T).1
      have hneg2 : ¬ 0 < ((Player.update_invulnerability)^[T]
          ({ p with hp := max 0 (p.hp - dmg), invulnerability_timer := T } :
            Player)).invulnerability_timer := by
        rw [ht]
        omega
      unfold Player.take_damage
      rw [if_neg hneg2]

/-- C5 witness: concrete two-hit scenario with damage 5 and window 3: the
first hit lands, a hit one frame later is rejected, a hit after the window
expires lands. -/
theorem C5_witness :
    (player0.take_damage 5 3).2 = true ∧
    (player0.take_damage 5 3).1.hp = max 0 (20 - 5) ∧
    (((Player.update_invulnerability)^[1] (player0.take_damage 5 3).1).take_damage 5 3) =
      ((Player.update_invulnerability)^[1] (player0.take_damage 5 3).1, false) ∧
    ((((Player.update_invulnerability)^[3] (player0.take_damage 5 3).1).take_damage 5 3).2 =
      true) := by
  have h := (C5_invulnerability_window player0 5 3).2 rfl
  exact ⟨h.1, h.2.1, h.2.2.2.2.1 1 (by norm_num) 5, h.2.2.2.2.2 5⟩

/-- C8 counterexample: a base projectile with velocity (1/2, 0) does not move
at all in one update, because `pygame.Rect` coordinates are integers and the
float sum is truncated on assignment — the position change is not the
velocity vector. -/
theorem C8_counterexample :
    ¬ ((((proj0.update).x : ℚ) - ((proj0.x : ℚ)) = proj0.vx) ∧
       (((proj0.update).y : ℚ) - ((proj0.y : ℚ)) = proj0.vy)) := by
  have hx0 : proj0.x = 0 := by
    show pyInt 0 = 0
    unfold pyInt
    rw [if_neg (lt_irrefl (0 : ℚ))]
    exact Int.floor_zero
  have hvx : proj0.vx = 1/2 := by
    show (1 : ℚ)/2 * 1 = 1/2
    norm_num
  have hux : (proj0.update).x = 0 := by
    rw [projectile_update_x, hx0, hvx]
    unfold pyInt
    rw [if_neg (by norm_num : ¬ (((0 : ℤ) : ℚ) + 1/2 < 0))]
    norm_num
  intro h
  rw [hux, hx0, hvx] at h
  norm_num at h

/-- C8 (amended): one `Projectile.update` call moves the stored rect position
to the truncation of position + velocity (each axis, exactly once per call);
in particular when both velocity components are integers the position changes
by exactly the velocity vector. -/
theorem C8_projectile_update_amended (p : Projectile) :
    (p.update).x = pyInt ((p.x : ℚ) + p.vx) ∧
    (p.update).y = pyInt ((p.y : ℚ) + p.vy) ∧
    (∀ a b : ℤ, p.vx = (a : ℚ) → p.vy = (b : ℚ) →
      (p.update).x = p.x + a ∧ (p.update).y = p.y + b) := by
  refine ⟨projectile_update_x p, projectile_update_y p, fun a b ha hb => ⟨?_, ?_⟩⟩
  · rw [projectile_update_x, ha,
      show ((p.x : ℚ) + (a : ℚ)) = ((p.x + a : ℤ) : ℚ) by push_cast; ring, pyInt_intCast]
  · rw [projectile_update_y, hb,
      show ((p.y : ℚ) + (b : ℚ)) = ((p.y + b : ℤ) : ℚ) by push_cast; ring, pyInt_intCast]

/-- C8 witness: the amended theorem applied to a projectile with integer
velocity (3, -2). -/
theorem C8_witness :
    (proj1.update).x = proj1.x + 3 ∧ (proj1.update).y = proj1.y + (-2) :=
  (C8_projectile_update_amended proj1).2.2 3 (-2)
    (by show (3 : ℚ) * 1 = ((3 : ℤ) : ℚ); norm_num)
    (by show (-2 : ℚ) * 1 = ((-2 : ℤ) : ℚ); norm_num)

/-- C9 counterexample: a homing blade whose latched target coincides with its
position (zero-length target vector) reaches the charging state with velocity
(0, 0) — it stays in place instead of defaulting to straight down at its
configured speed 15. -/
theorem C9_counterexample :
    blade0.target_x - blade0.x = 0 ∧ blade0.target_y - blade0.y = 0 ∧
    ((bladeStep)^[60] blade0).state = .charging ∧
    ((bladeStep)^[60] blade0).vx = 0 ∧ ((bladeStep)^[60] blade0).vy = 0 ∧
    ((bladeStep)^[60] blade0).vy ≠ ((bladeStep)^[60] blade0).speed := by
  have h59 : (bladeStep)^[59] blade0 = { blade0 with timer := blade0.timer + 59 } :=
    bladeStep_aiming_iter blade0 rfl 59 (by show 0 + 59 < 60; omega)
  have h60 : (bladeStep)^[60] blade0 =
      { blade0 with state := .charging, timer := 0 } := by
    rw [show (60 : ℕ) = 59 + 1 from rfl, Function.iterate_succ_apply', h59]
    show HomingBlade.update { blade0 with timer := blade0.timer + 59 } 0 = _
    simp only [HomingBlade.update]
    rw [if_pos (by show 60 ≤ 0 + 59 + 1; omega), if_neg (lt_irrefl (0 : ℚ))]
    rfl
  rw [h60]
  refine ⟨?_, ?_, rfl, rfl, rfl, ?_⟩
  · show (200 : ℚ) - 200 = 0
    norm_num
  · show (150 : ℚ) - 150 = 0
    norm_num
  · show (0 : ℚ) ≠ 15
    norm_num

/-- C9 (amended): a zero-length target vector degrades without failure in both
spawners, but differently: the instant-aim `TargetingBullet` defaults to
straight down at the given speed (times the global speed multiplier), while
the `HomingBlade` skips the velocity assignment at the aiming→charging
transition and keeps its initial velocity (0, 0), remaining stationary. -/
theorem C9_zero_target_amended (x y s mult base : ℚ) (hs : s ≠ 0) (b : HomingBlade)
    (hst : b.state = .aiming) (ht : b.aim_duration ≤ b.timer + 1) :
    ((TargetingBullet.init x y x y (some s) 0 base mult).vx = 0 ∧
     (TargetingBullet.init x y x y (some s) 0 base mult).vy = s * mult) ∧
    ((b.update 0).state = .charging ∧ (b.update 0).vx = b.vx ∧ (b.update 0).vy = b.vy) := by
  constructor
  · simp only [TargetingBullet.init, Projectile.init]
    rw [if_neg hs, if_neg (lt_irrefl (0 : ℚ))]
    constructor
    · show (0 : ℚ) * mult = 0
      norm_num
    · rfl
  · simp only [HomingBlade.update, hst]
    rw [if_pos ht, if_neg (lt_irrefl (0 : ℚ))]
    exact ⟨rfl, rfl, rfl⟩

/-- C9 witness: the amended theorem applied to a concrete spawn at (50, 60)
with speed 4 and a blade at the end of its aiming phase. -/
theorem C9_witness :
    ((TargetingBullet.init 50 60 50 60 (some 4) 0 3 1).vx = 0 ∧
     (TargetingBullet.init 50 60 50 60 (some 4) 0 3 1).vy = 4 * 1) ∧
    ((({ blade0 with timer := 59 }).update 0).state = .charging ∧
     (({ blade0 with timer := 59 }).update 0).vx = { blade0 with timer := 59 }.vx ∧
     (({ blade0 with timer := 59 }).update 0).vy = { blade0 with timer := 59 }.vy) :=
  C9_zero_target_amended 50 60 4 1 3 (by norm_num) { blade0 with timer := 59 }
    rfl (by show 60 ≤ 59 + 1; omega)

/-- C6 counterexample: the well at the origin with strength 1/2, queried from
(3,4) (distance 5 < 10) and from (6,8) (distance 10, same direction), returns
different forces — and at distance 5 the squared magnitude is 25/4, not the
claimed `(strength * (100 / max(5,10)))^2 = 25` — because the direction
quotient uses the clamped distance, leaving the vector un-normalized below the
clamp. -/
theorem C6_counterexample :
    (5 : ℚ)^2 = (well6.x - 3)^2 + (well6.y - 4)^2 ∧
    (10 : ℚ)^2 = (well6.x - 6)^2 + (well6.y - 8)^2 ∧
    well6.apply_force 3 4 5 = (-(3/2 : ℚ), -2) ∧
    well6.apply_force 6 8 10 = (-(3 : ℚ), -4) ∧
    well6.apply_force 3 4 5 ≠ well6.apply_force 6 8 10 ∧
    (well6.apply_force 3 4 5).1^2 + (well6.apply_force 3 4 5).2^2 ≠
      (well6.strength * (100 / 10))^2 := by
  have hact : ¬¬ (well6.active = true) := fun h => h rfl
  have hrep : ¬ (well6.repel = true) := fun h => Bool.noConfusion (show false = true from h)
  have hf1 : well6.apply_force 3 4 5 = (-(3/2 : ℚ), -2) := by
    simp only [GravityWell.apply_force]
    rw [if_neg hact, if_pos (by norm_num : (5 : ℚ) < 10), if_neg hrep]
    show ((well6.x - 3) / 10 * (well6.strength * (100 / 10)),
      (well6.y - 4) / 10 * (well6.strength * (100 / 10))) = _
    rw [show well6.x = 0 from rfl, show well6.y = 0 from rfl,
      show well6.strength = 1/2 from rfl]
    norm_num
  have hf2 : well6.apply_force 6 8 10 = (-(3 : ℚ), -4) := by
    simp only [GravityWell.apply_force]
    rw [if_neg hact, if_neg (by norm_num : ¬ ((10 : ℚ) < 10)), if_neg hrep]
    show ((well6.x - 6) / 10 * (well6.strength * (100 / 10)),
      (well6.y - 8) / 10 * (well6.strength * (100 / 10))) = _
    rw [show well6.x = 0 from rfl, show well6.y = 0 from rfl,
      show well6.strength = 1/2 from rfl]
    norm_num
  refine ⟨?_, ?_, hf1, hf2, ?_, ?_⟩
  · rw [show well6.x = 0 from rfl, show well6.y = 0 from rfl]
    norm_num
  · rw [show well6.x = 0 from rfl, show well6.y = 0 from rfl]
    norm_num
  · rw [hf1, hf2]
    intro h
    rw [Prod.mk.injEq] at h
    exact absurd h.2 (by norm_num)
  · rw [hf1, show well6.strength = 1/2 from rfl]
    norm_num

/-- C6 (amended): `apply_force` returns (0,0) when inactive; when active its
squared magnitude is `(strength * 100 * dist / max(dist,10)^2)^2`.  For
`dist ≥ 10` this matches the claimed law `strength * (100 / dist)` along the
normalized vector, but for `dist < 10` the magnitude is `strength * dist`
(bounded, vanishing at the centre — no singularity), which differs from the
force at distance 10. -/
theorem C6_gravity_force_amended (w : GravityWell) (px py dist : ℚ)
    (_hd : 0 ≤ dist) (hsq : dist^2 = (w.x - px)^2 + (w.y - py)^2) :
    (w.active = false → w.apply_force px py dist = (0, 0)) ∧
    (w.active = true →
      (w.apply_force px py dist).1^2 + (w.apply_force px py dist).2^2 =
        (w.strength * 100 * dist / (if dist < 10 then 10 else dist)^2)^2 ∧
      (10 ≤ dist → (w.apply_force px py dist).1^2 + (w.apply_force px py dist).2^2 =
        (w.strength * (100 / dist))^2) ∧
      (dist < 10 → (w.apply_force px py dist).1^2 + (w.apply_force px py dist).2^2 =
        (w.strength * dist)^2)) := by
  constructor
  · intro hina
    simp only [GravityWell.apply_force]
    rw [if_pos (by rw [hina]; exact fun h => Bool.noConfusion h)]
  · intro hact
    have hnn : ¬¬ (w.active = true) := fun h => h hact
    have hmain : (w.apply_force px py dist).1^2 + (w.apply_force px py dist).2^2 =
        (w.strength * 100 * dist / (if dist < 10 then 10 else dist)^2)^2 := by
      simp only [GravityWell.apply_force]
      rw [if_neg hnn]
      by_cases hlt : dist < 10
      · rw [if_pos hlt]
        by_cases hrep : w.repel = true
        · rw [if_pos hrep, force_norm_expand _ _ _ _ (by norm_num : (10 : ℚ) ≠ 0),
            ← hsq]
          ring
        · rw [if_neg hrep, force_norm_expand _ _ _ _ (by norm_num : (10 : ℚ) ≠ 0),
            ← hsq]
          ring
      · have hge : (10 : ℚ) ≤ dist := le_of_not_lt hlt
        have hne : dist ≠ 0 := by
          intro h0
          rw [h0] at hge
          norm_num at hge
        rw [if_neg hlt]
        by_cases hrep : w.repel = true
        · rw [if_pos hrep, force_norm_expand _ _ _ _ hne, ← hsq]
          field_simp
          ring
        · rw [if_neg hrep, force_norm_expand _ _ _ _ hne, ← hsq]
          field_simp
          ring
    refine ⟨hmain, ?_, ?_⟩
    · intro hge
      have hne : dist ≠ 0 := by
        intro h0
        rw [h0] at hge
        norm_num at hge
      rw [hmain, if_neg (not_lt.mpr hge)]
      field_simp
      ring
    · intro hlt
      rw [hmain, if_pos hlt]
      ring_nf

/-- C6 witness: the amended theorem at the concrete well (strength 1/2) and
player position (3,4), distance 5: the squared force magnitude is
`(strength * 5)^2`, not the claimed `(strength * 10)^2`. -/
theorem C6_witness :
    (well6.apply_force 3 4 5).1^2 + (well6.apply_force 3 4 5).2^2 =
      (well6.strength * 5)^2 :=
  ((C6_gravity_force_amended well6 3 4 5 (by norm_num)
    (by rw [show well6.x = 0 from rfl, show well6.y = 0 from rfl]; norm_num)).2
    rfl).2.2 (by norm_num)

/-- C7: the laser state only moves forward along warning → active → done —
`done` is absorbing, a warning beam becomes active exactly when its fixed
warning duration (30 ticks for a fresh beam) elapses and never skips to done,
an active beam becomes done exactly when its active duration (15 ticks)
elapses and never returns to warning — and `check_collision` is true exactly
when the beam is active and its full-width rectangle overlaps the box. -/
theorem C7_laser_forward_and_collision (b : LaserBeam) (box player : Rect)
    (hor : Bool) (pos : ℤ) (k j : ℕ) :
    LaserState.rank b.state ≤ LaserState.rank (b.update).state ∧
    (b.state = .done → (b.update).state = .done) ∧
    (b.state = .warning →
      ((b.update).state = .active ↔ b.warning_duration ≤ b.timer + 1) ∧
      (b.update).state ≠ .done) ∧
    (b.state = .active →
      ((b.update).state = .done ↔ b.active_duration ≤ b.timer + 1) ∧
      (b.update).state ≠ .warning) ∧
    (k < 30 → ((LaserBeam.update)^[k] (LaserBeam.init box hor pos)).state = .warning) ∧
    (30 ≤ k → k < 45 →
      ((LaserBeam.update)^[k] (LaserBeam.init box hor pos)).state = .active) ∧
    (45 ≤ j → ((LaserBeam.update)^[j] (LaserBeam.init box hor pos)).state = .done) ∧
    (b.check_collision player = true ↔
      b.state = .active ∧ b.beamRect.colliderect player = true) := by
  refine ⟨?_, ?_, ?_, ?_, ?_, ?_, ?_, ?_⟩
  · cases hst : b.state
    case warning =>
      by_cases h : b.warning_duration ≤ b.timer + 1
      · rw [laser_step_warning_fire b hst h]
        show LaserState.rank .warning ≤ LaserState.rank .active
        decide
      · rw [laser_step_warning_stay b hst (by omega)]
        show LaserState.rank .warning ≤ LaserState.rank b.state
        rw [hst]
    case active =>
      by_cases h : b.active_duration ≤ b.timer + 1
      · rw [laser_step_active_fire b hst h]
        show LaserState.rank .active ≤ LaserState.rank .done
        decide
      · rw [laser_step_active_stay b hst (by omega)]
        show LaserState.rank .active ≤ LaserState.rank b.state
        rw [hst]
    case done =>
      rw [laser_step_done b hst]
      show LaserState.rank .done ≤ LaserState.rank b.state
      rw [hst]
  · intro hst
    rw [laser_step_done b hst]
    exact hst
  · intro hst
    by_cases h : b.warning_duration ≤ b.timer + 1
    · rw [laser_step_warning_fire b hst h]
      exact ⟨⟨fun _ => h, fun _ => rfl⟩,
        fun hh => LaserState.noConfusion (show LaserState.active = LaserState.done from hh)⟩
    · rw [laser_step_warning_stay b hst (by omega)]
      refine ⟨⟨fun hh => ?_, fun hc => absurd hc h⟩, fun hh => ?_⟩
      · have hh2 : b.state = LaserState.active := hh
        rw [hst] at hh2
        exact LaserState.noConfusion hh2
      · have hh2 : b.state = LaserState.done := hh
        rw [hst] at hh2
        exact LaserState.noConfusion hh2
  · intro hst
    by_cases h : b.active_duration ≤ b.timer + 1
    · rw [laser_step_active_fire b hst h]
      exact ⟨⟨fun _ => h, fun _ => rfl⟩,
        fun hh => LaserState.noConfusion (show LaserState.done = LaserState.warning from hh)⟩
    · rw [laser_step_active_stay b hst (by omega)]
      refine ⟨⟨fun hh => ?_, fun hc => absurd hc h⟩, fun hh => ?_⟩
      · have hh2 : b.state = LaserState.done := hh
        rw [hst] at hh2
        exact LaserState.noConfusion hh2
      · have hh2 : b.state = LaserState.warning := hh
        rw [hst] at hh2
        exact LaserState.noConfusion hh2
  · intro hk
    rw [laser_warning_iter _ rfl k (by show 0 + k < 30; omega)]
    rfl
  · intro hk30 hk45
    have hk : k = (k - 30) + 30 := by omega
    rw [hk, Function.iterate_add_apply, laser_init_30,
      laser_active_iter _ rfl (k - 30) (by show 0 + (k - 30) < 15; omega)]
  · intro hj
    have hj2 : j = (j - 45) + 45 := by omega
    rw [hj2, Function.iterate_add_apply, laser_init_45]
    exact laser_done_iter _ rfl (j - 45)
  · unfold LaserBeam.check_collision
    split
    case isTrue hne =>
      exact ⟨fun h => Bool.noConfusion h, fun hc => absurd hc.1 hne⟩
    case isFalse hne =>
      exact ⟨fun h => ⟨not_not.mp hne, h⟩, fun hc => hc.2⟩

/-- C7 witness: the theorem at a fresh horizontal beam in the concrete box —
warning at tick 10, active at tick 32, done at tick 50 — and a concrete
overlapping collision while active. -/
theorem C7_witness :
    ((LaserBeam.update)^[10] (LaserBeam.init box0 true 200)).state = .warning ∧
    ((LaserBeam.update)^[32] (LaserBeam.init box0 true 200)).state = .active ∧
    ((LaserBeam.update)^[50] (LaserBeam.init box0 true 200)).state = .done ∧
    laserActive.check_collision ⟨180, 190, 20, 20⟩ = true := by
  obtain ⟨-, -, -, -, hw, -, -, -⟩ :=
    C7_laser_forward_and_collision laserActive box0 ⟨180, 190, 20, 20⟩ true 200 10 50
  obtain ⟨-, -, -, -, -, ha, -, -⟩ :=
    C7_laser_forward_and_collision laserActive box0 ⟨180, 190, 20, 20⟩ true 200 32 50
  obtain ⟨-, -, -, -, -, -, hd, hcol⟩ :=
    C7_laser_forward_and_collision laserActive box0 ⟨180, 190, 20, 20⟩ true 200 10 50
  exact ⟨hw (by omega), ha (by omega) (by omega), hd (by omega),
    hcol.mpr ⟨rfl, by decide⟩⟩

/-! ## Attack-manager scheduler lemmas -/

/-- `update` on an inactive round does nothing and returns false. -/
theorem update_not_active (s : AMState) (cfg : Settings) (rng : Rng) (px py : ℚ)
    (h : ¬ s.round_active = true) : s.update cfg rng px py = (s, false, []) := by
  simp only [AMState.update]
  rw [if_pos h]

/-- `update` in the gap with time left only advances the gap timer. -/
theorem update_gap_stay (s : AMState) (cfg : Settings) (rng : Rng) (px py : ℚ)
    (hact : s.round_active = true) (hgap : s.in_gap = true)
    (hlt : s.gap_timer + 1 < cfg.GAP_BETWEEN_ATTACKS) :
    s.update cfg rng px py = ({ s with gap_timer := s.gap_timer + 1 }, true, []) := by
  simp only [AMState.update]
  rw [if_neg (show ¬¬(s.round_active = true) from fun hh => hh hact), if_pos hgap,
    if_neg (by omega)]

/-- `update` at the end of the gap leaves the gap and advances the queue. -/
theorem update_gap_fire (s : AMState) (cfg : Settings) (rng : Rng) (px py : ℚ)
    (hact : s.round_active = true) (hgap : s.in_gap = true)
    (hge : cfg.GAP_BETWEEN_ATTACKS ≤ s.gap_timer + 1) :
    s.update cfg rng px py =
      (({ s with in_gap := false, gap_timer := 0 }).nextPattern rng, true, []) := by
  simp only [AMState.update]
  rw [if_neg (show ¬¬(s.round_active = true) from fun hh => hh hact), if_pos hgap,
    if_pos hge]

/-- `update` when the pattern duration elapses ends the pattern. -/
theorem update_duration_end (s : AMState) (cfg : Settings) (rng : Rng) (px py : ℚ)
    (hact : s.round_active = true) (hgap : s.in_gap = false)
    (hdur : cfg.ATTACK_DURATION ≤ s.pattern_timer + 1) :
    s.update cfg rng px py =
      (({ s with pattern_timer := s.pattern_timer + 1 }).endCurrentPattern, true, []) := by
  simp only [AMState.update]
  rw [if_neg (show ¬¬(s.round_active = true) from fun hh => hh hact),
    if_neg (show ¬(s.in_gap = true) from by rw [hgap]; exact fun hh => Bool.noConfusion hh),
    if_pos hdur]

/-- `update` in the running state with time left executes the patterns. -/
theorem update_run_parts (s : AMState) (cfg : Settings) (rng : Rng) (px py : ℚ)
    (hact : s.round_active = true) (hgap : s.in_gap = false)
    (hdur : s.pattern_timer + 1 < cfg.ATTACK_DURATION) :
    s.update cfg rng px py =
      (if ((executeCurrentPattern { s with pattern_timer := s.pattern_timer + 1 }
            cfg rng px py).1.secondary_pattern).isSome = true then
        ((executeSecondaryPattern (executeCurrentPattern
            { s with pattern_timer := s.pattern_timer + 1 } cfg rng px py).1 cfg px py).1,
          true,
          (executeCurrentPattern { s with pattern_timer := s.pattern_timer + 1 }
            cfg rng px py).2 ++
          (executeSecondaryPattern (executeCurrentPattern
            { s with pattern_timer := s.pattern_timer + 1 } cfg rng px py).1 cfg px py).2)
      else
        ((executeCurrentPattern { s with pattern_timer := s.pattern_timer + 1 }
            cfg rng px py).1,
          true,
          (executeCurrentPattern { s with pattern_timer := s.pattern_timer + 1 }
            cfg rng px py).2)) := by
  simp only [AMState.update]
  rw [if_neg (show ¬¬(s.round_active = true) from fun hh => hh hact),
    if_neg (show ¬(s.in_gap = true) from by rw [hgap]; exact fun hh => Bool.noConfusion hh),
    if_neg (show ¬(cfg.ATTACK_DURATION ≤ s.pattern_timer + 1) from by omega)]

/-- `_next_pattern` never touches the projectile or hazard collections and
always advances the index by one. -/
theorem nextPattern_keeps (s : AMState) (rng : Rng) :
    (s.nextPattern rng).bullets = s.bullets ∧
    (s.nextPattern rng).lasers = s.lasers ∧
    (s.nextPattern rng).gravity_wells = s.gravity_wells ∧
    (s.nextPattern rng).homing_blades = s.homing_blades ∧
    (s.nextPattern rng).current_pattern_index = s.current_pattern_index + 1 := by
  simp only [AMState.nextPattern]
  split
  · exact ⟨rfl, rfl, rfl, rfl, rfl⟩
  · exact ⟨rfl, rfl, rfl, rfl, rfl⟩

/-- `_next_pattern` on an exhausted queue finishes the round. -/
theorem nextPattern_exhausted (s : AMState) (rng : Rng)
    (h : s.attack_queue.length ≤ s.current_pattern_index + 1) :
    (s.nextPattern rng).round_active = false ∧ (s.nextPattern rng).current_pattern = none := by
  simp only [AMState.nextPattern]
  rw [if_pos h]
  exact ⟨rfl, rfl⟩

/-- `_next_pattern` with queue entries left loads the next pattern and resets
its counters. -/
theorem nextPattern_continue (s : AMState) (rng : Rng)
    (h : s.current_pattern_index + 1 < s.attack_queue.length) :
    (s.nextPattern rng).round_active = s.round_active ∧
    (s.nextPattern rng).current_pattern = s.attack_queue[s.current_pattern_index + 1]? ∧
    (s.nextPattern rng).in_gap = s.in_gap ∧
    (s.nextPattern rng).pattern_timer = 0 ∧
    (s.nextPattern rng).secondary_pattern =
      (match s.attack_queue[s.current_pattern_index + 1]? with
        | some p => chooseSecondary p rng
        | none => none) := by
  simp only [AMState.nextPattern]
  rw [if_neg (by omega)]
  exact ⟨rfl, rfl, rfl, rfl, rfl⟩

/-- `_execute_current_pattern` never touches the round scheduling fields. -/
theorem executeCurrent_keeps (s : AMState) (cfg : Settings) (rng : Rng) (px py : ℚ) :
    (executeCurrentPattern s cfg rng px py).1.secondary_pattern = s.secondary_pattern ∧
    (executeCurrentPattern s cfg rng px py).1.current_pattern = s.current_pattern ∧
    (executeCurrentPattern s cfg rng px py).1.round_active = s.round_active := by
  unfold executeCurrentPattern
  cases hc : s.current_pattern with
  | none => exact ⟨rfl, hc, rfl⟩
  | some p =>
    refine ⟨?_, ?_, ?_⟩ <;>
      cases p <;>
        simp only [lineRainBody, circleBurstBody, targetingBody, bouncingWallsBody,
          spiralBody, laserWarningBody, snakeWaveBody, homingBladesBody,
          expandingRingBody, gravityWellsBody, rotatingCrossBody, AMState.setSlotTimer] <;>
        split <;> first | rfl | exact hc

/-- `_execute_secondary_pattern` never touches the round scheduling fields. -/
theorem executeSecondary_keeps (s : AMState) (cfg : Settings) (px py : ℚ) :
    (executeSecondaryPattern s cfg px py).1.secondary_pattern = s.secondary_pattern ∧
    (executeSecondaryPattern s cfg px py).1.current_pattern = s.current_pattern ∧
    (executeSecondaryPattern s cfg px py).1.round_active = s.round_active := by
  unfold executeSecondaryPattern
  cases hc : s.secondary_pattern with
  | none => exact ⟨hc, rfl, rfl⟩
  | some q =>
    refine ⟨?_, ?_, ?_⟩ <;>
      cases q <;>
        first
        | rfl
        | exact hc
        | (simp only [lineRainBody, circleBurstBody, targetingBody, bouncingWallsBody,
             AMState.setSlotTimer]
           split <;> first | rfl | exact hc)

/-- `_execute_current_pattern` emits exactly one primary invocation event. -/
theorem executeCurrent_events (s : AMState) (cfg : Settings) (rng : Rng) (px py : ℚ)
    (p : Pat) (hp : s.current_pattern = some p) :
    (executeCurrentPattern s cfg rng px py).2 = [(p, Slot.primary)] := by
  unfold executeCurrentPattern
  rw [hp]

/-- With `line_rain` current, `_execute_current_pattern` runs the line-rain
body. -/
theorem executeCurrent_fst_line_rain (s : AMState) (cfg : Settings) (rng : Rng) (px py : ℚ)
    (hp : s.current_pattern = some Pat.line_rain) :
    (executeCurrentPattern s cfg rng px py).1 = lineRainBody s cfg false := by
  unfold executeCurrentPattern
  rw [hp]

/-- `_execute_secondary_pattern` emits one secondary event when the secondary
is one of the four patterns it dispatches. -/
theorem executeSecondary_events_handled (s : AMState) (cfg : Settings) (px py : ℚ)
    (q : Pat) (hq : s.secondary_pattern = some q)
    (h4 : q = Pat.line_rain ∨ q = Pat.circle_burst ∨ q = Pat.targeting ∨
      q = Pat.bouncing_walls) :
    (executeSecondaryPattern s cfg px py).2 = [(q, Slot.secondary)] := by
  unfold executeSecondaryPattern
  rw [hq]
  rcases h4 with rfl | rfl | rfl | rfl <;> rfl

/-- A `spiral` secondary falls through the dispatch: nothing runs. -/
theorem executeSecondary_spiral (s : AMState) (cfg : Settings) (px py : ℚ)
    (hq : s.secondary_pattern = some Pat.spiral) :
    executeSecondaryPattern s cfg px py = (s, []) := by
  unfold executeSecondaryPattern
  rw [hq]

/-- The line-rain body run in the primary slot never touches the secondary
slot timer. -/
theorem lineRainBody_timer2 (s : AMState) (cfg : Settings) :
    (lineRainBody s cfg false).pattern_internal_timer_2 = s.pattern_internal_timer_2 := by
  simp only [lineRainBody, AMState.setSlotTimer]
  split <;> rfl

/-- The secondary draw is either nothing or a basic pattern different from the
current one. -/
theorem chooseSecondary_spec (p : Pat) (rng : Rng) :
    chooseSecondary p rng = none ∨
      ∃ q, chooseSecondary p rng = some q ∧ q ∈ BASIC_PATTERNS ∧ q ≠ p := by
  simp only [chooseSecondary]
  by_cases hb : p ∈ BASIC_PATTERNS
  · rw [if_pos hb]
    cases hcomb : rng.combine
    · left
      rw [if_neg (fun hh => Bool.noConfusion hh)]
    · right
      rw [if_pos rfl]
      have hlen : 0 < (BASIC_PATTERNS.filter (fun x => x ≠ p)).length := by
        cases p <;> decide
      have hn : rng.secondaryIdx % (BASIC_PATTERNS.filter (fun x => x ≠ p)).length <
          (BASIC_PATTERNS.filter (fun x => x ≠ p)).length := Nat.mod_lt _ hlen
      have hmem : (BASIC_PATTERNS.filter (fun x => x ≠ p)).getD
          (rng.secondaryIdx % (BASIC_PATTERNS.filter (fun x => x ≠ p)).length) p ∈
          BASIC_PATTERNS.filter (fun x => x ≠ p) := by
        rw [List.getD_eq_getElem _ _ hn]
        exact List.getElem_mem hn
      obtain ⟨hqb, hqp⟩ := List.mem_filter.mp hmem
      exact ⟨_, rfl, hqb, of_decide_eq_true hqp⟩
  · rw [if_neg hb]
    left
    rfl

/-- A complex current pattern never receives a secondary. -/
theorem chooseSecondary_of_complex (p : Pat) (rng : Rng) (hp : p ∈ COMPLEX_PATTERNS) :
    chooseSecondary p rng = none := by
  have hb : p ∉ BASIC_PATTERNS := by
    revert hp
    cases p <;> decide
  simp only [chooseSecondary]
  rw [if_neg hb]

/-- Transfer of the secondary invariant along equal scheduling fields. -/
theorem secondaryInv_of_fields (s t : AMState) (h1 : t.round_active = s.round_active)
    (h2 : t.current_pattern = s.current_pattern)
    (h3 : t.secondary_pattern = s.secondary_pattern)
    (h : SecondaryInv s) : SecondaryInv t := by
  intro ha p hp
  rw [h1] at ha
  rw [h2] at hp
  rw [h3]
  exact h ha p hp

/-- Any queue installation satisfies the secondary invariant. -/
theorem installQueue_inv (s : AMState) (queue : List Pat) (rng : Rng) :
    SecondaryInv (s.installQueue queue rng) := by
  intro ha p hp
  have hcur : (s.installQueue queue rng).current_pattern = queue.head? := rfl
  have hsec : (s.installQueue queue rng).secondary_pattern =
      (match queue.head? with
        | some p => chooseSecondary p rng
        | none => none) := rfl
  rw [hcur] at hp
  rw [hsec, hp]
  exact ⟨chooseSecondary_spec p rng, fun hcplx => chooseSecondary_of_complex p rng hcplx⟩

/-- `_next_pattern` re-establishes the secondary invariant. -/
theorem nextPattern_inv (s : AMState) (rng : Rng) : SecondaryInv (s.nextPattern rng) := by
  intro hact p hp
  by_cases h : s.attack_queue.length ≤ s.current_pattern_index + 1
  · obtain ⟨hr, -⟩ := nextPattern_exhausted s rng h
    rw [hr] at hact
    exact Bool.noConfusion hact
  · obtain ⟨-, hc, -, -, hs⟩ := nextPattern_continue s rng (by omega)
    rw [hc] at hp
    rw [hs, hp]
    exact ⟨chooseSecondary_spec p rng, fun hcplx => chooseSecondary_of_complex p rng hcplx⟩

/-- One tick of `update` preserves the secondary invariant. -/
theorem update_inv (s : AMState) (cfg : Settings) (rng : Rng) (px py : ℚ)
    (h : SecondaryInv s) : SecondaryInv (s.update cfg rng px py).1 := by
  by_cases hact : s.round_active = true
  · by_cases hgap : s.in_gap = true
    · by_cases hg : cfg.GAP_BETWEEN_ATTACKS ≤ s.gap_timer + 1
      · rw [update_gap_fire s cfg rng px py hact hgap hg]
        exact nextPattern_inv _ rng
      · rw [update_gap_stay s cfg rng px py hact hgap (by omega)]
        exact h
    · have hgap' : s.in_gap = false := by
        revert hgap
        cases s.in_gap <;> simp
      by_cases hd : cfg.ATTACK_DURATION ≤ s.pattern_timer + 1
      · rw [update_duration_end s cfg rng px py hact hgap' hd]
        exact h
      · rw [update_run_parts s cfg rng px py hact hgap' (by omega)]
        by_cases hsome : ((executeCurrentPattern
            { s with pattern_timer := s.pattern_timer + 1 }
            cfg rng px py).1.secondary_pattern).isSome = true
        · rw [if_pos hsome]
          refine secondaryInv_of_fields s _ ?_ ?_ ?_ h
          · rw [(executeSecondary_keeps _ cfg px py).2.2,
              (executeCurrent_keeps _ cfg rng px py).2.2]
          · rw [(executeSecondary_keeps _ cfg px py).2.1,
              (executeCurrent_keeps _ cfg rng px py).2.1]
          · rw [(executeSecondary_keeps _ cfg px py).1,
              (executeCurrent_keeps _ cfg rng px py).1]
        · rw [if_neg hsome]
          refine secondaryInv_of_fields s _ ?_ ?_ ?_ h
          · rw [(executeCurrent_keeps _ cfg rng px py).2.2]
          · rw [(executeCurrent_keeps _ cfg rng px py).2.1]
          · rw [(executeCurrent_keeps _ cfg rng px py).1]
  · rw [update_not_active s cfg rng px py hact]
    exact h

/-! ## Attack-manager claim theorems -/

/-- C1: the per-tick scheduler cycle.  When the pattern-duration counter
reaches the attack duration, the update clears every projectile and hazard
and enters the gap; while in the gap no pattern runs (no invocation events,
no new projectiles, every collection untouched); when the gap counter reaches
the gap duration, the queue index advances by exactly one — ending the round
when the queue is exhausted, otherwise loading the next pattern with fresh
counters; a gap tick with time left changes only the gap counter. -/
theorem C1_scheduler_gap_cycle (s : AMState) (cfg : Settings) (rng : Rng) (px py : ℚ) :
    (s.round_active = true → s.in_gap = false →
      cfg.ATTACK_DURATION ≤ s.pattern_timer + 1 →
      ((s.update cfg rng px py).1.bullets = 0 ∧
       (s.update cfg rng px py).1.lasers = [] ∧
       (s.update cfg rng px py).1.gravity_wells = [] ∧
       (s.update cfg rng px py).1.cross_bullets = 0 ∧
       (s.update cfg rng px py).1.homing_blades = [] ∧
       (s.update cfg rng px py).1.in_gap = true ∧
       (s.update cfg rng px py).1.gap_timer = 0 ∧
       (s.update cfg rng px py).2.2 = [])) ∧
    (s.round_active = true → s.in_gap = true →
      ((s.update cfg rng px py).2.2 = [] ∧
       (s.update cfg rng px py).1.bullets = s.bullets ∧
       (s.update cfg rng px py).1.lasers = s.lasers ∧
       (s.update cfg rng px py).1.gravity_wells = s.gravity_wells ∧
       (s.update cfg rng px py).1.homing_blades = s.homing_blades)) ∧
    (s.round_active = true → s.in_gap = true →
      cfg.GAP_BETWEEN_ATTACKS ≤ s.gap_timer + 1 →
      ((s.update cfg rng px py).1.current_pattern_index = s.current_pattern_index + 1 ∧
       (s.attack_queue.length ≤ s.current_pattern_index + 1 →
         (s.update cfg rng px py).1.round_active = false ∧
         (s.update cfg rng px py).1.current_pattern = none) ∧
       (s.current_pattern_index + 1 < s.attack_queue.length →
         (s.update cfg rng px py).1.round_active = true ∧
         (s.update cfg rng px py).1.current_pattern =
           s.attack_queue[s.current_pattern_index + 1]? ∧
         (s.update cfg rng px py).1.in_gap = false ∧
         (s.update cfg rng px py).1.pattern_timer = 0))) ∧
    (s.round_active = true → s.in_gap = true →
      s.gap_timer + 1 < cfg.GAP_BETWEEN_ATTACKS →
      (s.update cfg rng px py).1 = { s with gap_timer := s.gap_timer + 1 }) := by
  refine ⟨?_, ?_, ?_, ?_⟩
  · intro hact hgap hdur
    rw [update_duration_end s cfg rng px py hact hgap hdur]
    exact ⟨rfl, rfl, rfl, rfl, rfl, rfl, rfl, rfl⟩
  · intro hact hgap
    by_cases hg : cfg.GAP_BETWEEN_ATTACKS ≤ s.gap_timer + 1
    · rw [update_gap_fire s cfg rng px py hact hgap hg]
      obtain ⟨hb, hl, hw, hh, -⟩ :=
        nextPattern_keeps { s with in_gap := false, gap_timer := 0 } rng
      exact ⟨rfl, hb, hl, hw, hh⟩
    · rw [update_gap_stay s cfg rng px py hact hgap (by omega)]
      exact ⟨rfl, rfl, rfl, rfl, rfl⟩
  · intro hact hgap hge
    rw [update_gap_fire s cfg rng px py hact hgap hge]
    obtain ⟨-, -, -, -, hidx⟩ :=
      nextPattern_keeps { s with in_gap := false, gap_timer := 0 } rng
    refine ⟨hidx, ?_, ?_⟩
    · intro hlen
      exact nextPattern_exhausted { s with in_gap := false, gap_timer := 0 } rng hlen
    · intro hlen
      obtain ⟨hr, hc, hig, hpt, -⟩ :=
        nextPattern_continue { s with in_gap := false, gap_timer := 0 } rng hlen
      rw [hr, hc, hig, hpt]
      exact ⟨hact, rfl, rfl, rfl⟩
  · intro hact hgap hlt
    rw [update_gap_stay s cfg rng px py hact hgap hlt]

/-- C1 witness: the claim theorem at a concrete state one tick from the end of
the gap after the last queued pattern — the index advances to 1 and the round
ends. -/
theorem C1_witness :
    (sGap.update cfg0 rng0 0 0).1.current_pattern_index = 1 ∧
    (sGap.update cfg0 rng0 0 0).1.round_active = false ∧
    (sGap.update cfg0 rng0 0 0).1.current_pattern = none := by
  obtain ⟨-, -, h3, -⟩ := C1_scheduler_gap_cycle sGap cfg0 rng0 0 0
  obtain ⟨hidx, hex, -⟩ := h3 rfl rfl (by decide)
  exact ⟨hidx, (hex (by decide)).1, (hex (by decide)).2⟩

/-- C2 counterexample: requesting 15 patterns yields a queue of length 11, not
15 — `start_round_with_pattern_count` clamps the requested count to the pool
size before sampling, so the fill-with-replacement loop never runs. -/
theorem C2_counterexample :
    (am0.start_round_with_pattern_count rng0 15).attack_queue.length = 11 ∧
    (11 : ℕ) ≠ 15 := by
  constructor
  · decide
  · decide

/-- C2 (amended): for every requested count, the queue length is
`max 1 (min count 11)` (the count is clamped to `[1, 11]` before sampling —
never more than 11); the entries are always distinct and all are valid
pattern identifiers. -/
theorem C2_start_round_with_pattern_count_amended (s : AMState) (rng : Rng) (n : ℕ)
    (hperm : rng.samplePerm.Perm PATTERN_TYPES) :
    (s.start_round_with_pattern_count rng n).attack_queue.length = max 1 (min n 11) ∧
    (s.start_round_with_pattern_count rng n).attack_queue.Nodup ∧
    ∀ p ∈ (s.start_round_with_pattern_count rng n).attack_queue, p ∈ PATTERN_TYPES := by
  have hlen : rng.samplePerm.length = 11 := by
    rw [hperm.length_eq]
    rfl
  have hqueue : (s.start_round_with_pattern_count rng n).attack_queue =
      rng.samplePerm.take (max 1 (min n 11)) := by
    show rng.samplePerm.take (max 1 (min n 11)) ++
      (List.range (max 1 (min n 11) -
        (rng.samplePerm.take (max 1 (min n 11))).length)).map rng.choicePat =
      rng.samplePerm.take (max 1 (min n 11))
    have htake : (rng.samplePerm.take (max 1 (min n 11))).length = max 1 (min n 11) := by
      rw [List.length_take, hlen]
      omega
    rw [htake, Nat.sub_self]
    simp
  refine ⟨?_, ?_, ?_⟩
  · rw [hqueue, List.length_take, hlen]
    omega
  · rw [hqueue]
    exact ((List.take_sublist _ _).nodup
      (hperm.nodup_iff.mpr (by decide)))
  · intro p hp
    rw [hqueue] at hp
    exact hperm.subset ((List.take_sublist _ _).subset hp)

/-- C2 witness: the amended theorem at the identity shuffle with requested
count 15. -/
theorem C2_witness :
    (am0.start_round_with_pattern_count rng0 15).attack_queue.length =
      max 1 (min 15 11) ∧
    (am0.start_round_with_pattern_count rng0 15).attack_queue.Nodup ∧
    ∀ p ∈ (am0.start_round_with_pattern_count rng0 15).attack_queue,
      p ∈ PATTERN_TYPES :=
  C2_start_round_with_pattern_count_amended am0 rng0 15 (List.Perm.refl _)

/-- C3 counterexample: a reachable round start whose primary is `line_rain`
and whose drawn secondary is `spiral`.  On a running tick the update emits
only the primary invocation — the spiral secondary falls through the
four-branch dispatch of `_execute_secondary_pattern` and is never executed
(its slot timer is untouched). -/
theorem C3_counterexample :
    s3.current_pattern = some Pat.line_rain ∧
    s3.secondary_pattern = some Pat.spiral ∧
    s3.round_active = true ∧ s3.in_gap = false ∧
    s3.pattern_timer + 1 < cfg0.ATTACK_DURATION ∧
    (s3.update cfg0 rng0 0 0).2.2 = [(Pat.line_rain, Slot.primary)] ∧
    (s3.update cfg0 rng0 0 0).1.pattern_internal_timer_2 = s3.pattern_internal_timer_2 := by
  have hp : s3.current_pattern = some Pat.line_rain := by decide
  have hq : s3.secondary_pattern = some Pat.spiral := by decide
  have hact : s3.round_active = true := rfl
  have hgap : s3.in_gap = false := rfl
  have hdur : s3.pattern_timer + 1 < cfg0.ATTACK_DURATION := by decide
  have hsec : (executeCurrentPattern { s3 with pattern_timer := s3.pattern_timer + 1 }
      cfg0 rng0 0 0).1.secondary_pattern = some Pat.spiral := by
    rw [(executeCurrent_keeps _ cfg0 rng0 0 0).1]
    exact hq
  have hrun := update_run_parts s3 cfg0 rng0 0 0 hact hgap hdur
  have hsome : ((executeCurrentPattern { s3 with pattern_timer := s3.pattern_timer + 1 }
      cfg0 rng0 0 0).1.secondary_pattern).isSome = true := by
    rw [hsec]
    rfl
  refine ⟨hp, hq, hact, hgap, hdur, ?_, ?_⟩
  · rw [hrun, if_pos hsome,
      executeCurrent_events { s3 with pattern_timer := s3.pattern_timer + 1 }
        cfg0 rng0 0 0 Pat.line_rain hp,
      executeSecondary_spiral _ cfg0 0 0 hsec]
    rfl
  · rw [hrun, if_pos hsome,
      executeSecondary_spiral _ cfg0 0 0 hsec,
      executeCurrent_fst_line_rain { s3 with pattern_timer := s3.pattern_timer + 1 }
        cfg0 rng0 0 0 hp, lineRainBody_timer2]

/-- C3 (amended): on every running tick with time left and a secondary
present, the update invokes the primary pattern exactly once; the secondary
is invoked exactly once when it is one of the four patterns the secondary
dispatcher handles (`line_rain`, `circle_burst`, `targeting`,
`bouncing_walls`) — `spiral` and `laser_warning`, though drawable as
secondaries, fall through the dispatch and do not run. -/
theorem C3_secondary_execution_amended (s : AMState) (cfg : Settings) (rng : Rng)
    (px py : ℚ) (p q : Pat)
    (hact : s.round_active = true) (hgap : s.in_gap = false)
    (hdur : s.pattern_timer + 1 < cfg.ATTACK_DURATION)
    (hp : s.current_pattern = some p) (hq : s.secondary_pattern = some q)
    (hq4 : q = Pat.line_rain ∨ q = Pat.circle_burst ∨ q = Pat.targeting ∨
      q = Pat.bouncing_walls) :
    (s.update cfg rng px py).2.2 = [(p, Slot.primary), (q, Slot.secondary)] := by
  have hsec : (executeCurrentPattern { s with pattern_timer := s.pattern_timer + 1 }
      cfg rng px py).1.secondary_pattern = some q := by
    rw [(executeCurrent_keeps _ cfg rng px py).1]
    exact hq
  rw [update_run_parts s cfg rng px py hact hgap hdur,
    if_pos (show ((executeCurrentPattern { s with pattern_timer := s.pattern_timer + 1 }
      cfg rng px py).1.secondary_pattern).isSome = true by rw [hsec]; rfl),
    executeCurrent_events { s with pattern_timer := s.pattern_timer + 1 }
      cfg rng px py p hp,
    executeSecondary_events_handled _ cfg px py q hsec hq4]
  rfl

/-- C3 witness: the amended theorem at a concrete round whose primary is
`line_rain` and whose secondary is `circle_burst`. -/
theorem C3_witness :
    (s4.update cfg0 rng0 0 0).2.2 =
      [(Pat.line_rain, Slot.primary), (Pat.circle_burst, Slot.secondary)] :=
  C3_secondary_execution_amended s4 cfg0 rng0 0 0 Pat.line_rain Pat.circle_burst
    rfl rfl (by decide) (by decide) (by decide) (Or.inr (Or.inl rfl))

/-- C10: in every reachable attack-manager state with an active round, the
secondary pattern is either none or a basic pattern strictly different from
the current primary (self-combination is impossible), and it is none whenever
the primary is a complex pattern. -/
theorem C10_secondary_pattern_invariant (cfg : Settings) (s : AMState)
    (h : ReachableAM cfg s) : SecondaryInv s := by
  induction h with
  | start s rng => exact installQueue_inv _ _ rng
  | startCount s rng n => exact installQueue_inv _ _ rng
  | step s rng px py hr ih => exact update_inv s cfg rng px py ih
  | reset s hr ih =>
    intro ha p hp
    exact absurd (show (false : Bool) = true from ha) (by decide)
  | setDifficulty s d hr ih => exact ih
  | clearBullets s hr ih => exact ih

/-- C10 witness: the invariant holds at a concrete freshly started round. -/
theorem C10_witness : SecondaryInv (am0.startNewRound cfg0 rng0) :=
  C10_secondary_pattern_invariant cfg0 _ (ReachableAM.start am0 rng0)

end Untale
